import Mathlib

/-!
Shallow embedding of `src/test_os/src/fibonacci.c`.

The C source is:

    void fib10() {
        int a, b, c, d;
        a = 0;
        b = 1;
        c = 10; // The cth fibonacci number
        c -= 1;
        while (c > 0) {
            (d = c & 1) ? (a += b) : (b += a);
            c -= 1;
        }
        if (d == 0) { a = b; }
        exit(a);    // perform an exit syscall
    }

The four locals are modelled as a record over mathematical integers.
The variable `d` is an `Option Int`, `none` while it is still
uninitialized.  The `while` loop is a recursive function on the state,
and the argument of the final `exit` call is the value produced by
`fib10` below; it is `none` exactly when the program would read the
uninitialized `d` after a loop that never ran.
-/

/-- The four local `int` variables of `fib10`; `d` is `none` while
uninitialized. -/
structure FibState where
  a : Int
  b : Int
  c : Int
  d : Option Int
deriving DecidableEq

/-- One execution of the loop body
`(d = c & 1) ? (a += b) : (b += a); c -= 1;`.
The C conditional expression tests the freshly assigned `d` for being
nonzero; both branches are followed by the decrement of `c`. -/
def loopBody (s : FibState) : FibState :=
  if Int.land s.c 1 ≠ 0 then
    { s with d := some (Int.land s.c 1), a := s.a + s.b, c := s.c - 1 }
  else
    { s with d := some (Int.land s.c 1), b := s.b + s.a, c := s.c - 1 }

/-- The state after `a = 0; b = 1; c = 10;`, with `d` uninitialized. -/
def initState : FibState := { a := 0, b := 1, c := 10, d := none }

/-- The statement `c -= 1;` that precedes the loop. -/
def preLoop (s : FibState) : FibState := { s with c := s.c - 1 }

/-- The `while (c > 0)` loop of `fib10`, run to completion. -/
def loop (s : FibState) : FibState :=
  if s.c > 0 then loop (loopBody s) else s
termination_by s.c.toNat
decreasing_by
  simp only [loopBody]
  split <;> simp <;> omega

/-- The statement `if (d == 0) { a = b; }` followed by `exit(a)`: the
value handed to the exit syscall, or `none` if `d` is read while still
uninitialized. -/
def postLoop (s : FibState) : Option Int :=
  match s.d with
  | none => none
  | some d => some (if d = 0 then s.b else s.a)

/-- The whole of `fib10`: the value passed to `exit` (`none` would mean
an uninitialized read of `d`). -/
def fib10 : Option Int := postLoop (loop (preLoop initState))

/-- The mathematical Fibonacci sequence with F(0)=0, F(1)=1. -/
def fib : Nat → Nat
  | 0 => 0
  | 1 => 1
  | n + 2 => fib n + fib (n + 1)

/-- Number of times the loop body executes when the `while` loop is
started from state `s`. -/
def loopCount (s : FibState) : Nat :=
  if s.c > 0 then loopCount (loopBody s) + 1 else 0
termination_by s.c.toNat
decreasing_by
  simp only [loopBody]
  split <;> simp <;> omega

/-- The loop step exactly as the spec words it: compute parity
`d = c mod 2` via bitwise AND with 1; if `d` is 1 (odd), add `b` into
`a`; otherwise add `a` into `b`; then decrement `c`.  This definition
follows the specification text and is compared against `loopBody`,
which follows the C source. -/
def specLoopStep (s : FibState) : FibState :=
  if Int.land s.c 1 = 1 then
    { s with d := some (Int.land s.c 1), a := s.a + s.b, c := s.c - 1 }
  else
    { s with d := some (Int.land s.c 1), b := s.b + s.a, c := s.c - 1 }

/-- Wrap an unbounded integer to the value a 32-bit two's-complement
machine `int` would hold. -/
def wrap32 (x : Int) : Int := (x + 2 ^ 31) % 2 ^ 32 - 2 ^ 31

/-- The loop body with every arithmetic result wrapped to 32-bit
two's-complement machine semantics. -/
def loopBody32 (s : FibState) : FibState :=
  if Int.land s.c 1 ≠ 0 then
    { s with d := some (Int.land s.c 1), a := wrap32 (s.a + s.b), c := wrap32 (s.c - 1) }
  else
    { s with d := some (Int.land s.c 1), b := wrap32 (s.b + s.a), c := wrap32 (s.c - 1) }

/-- The `while` loop under 32-bit machine semantics, with explicit fuel
(10 units are ample for this program, as proved below). -/
def loop32 : Nat → FibState → FibState
  | 0, s => s
  | n + 1, s => if s.c > 0 then loop32 n (loopBody32 s) else s

/-- The pre-loop `c -= 1;` under 32-bit machine semantics. -/
def preLoop32 (s : FibState) : FibState := { s with c := wrap32 (s.c - 1) }

/-- The whole of `fib10` under 32-bit two's-complement machine
semantics. -/
def fib10machine : Option Int := postLoop (loop32 10 (preLoop32 initState))

/-- A run of `fib10` as a function of its (empty) input: the final state
of the locals together with the exit value. -/
def fibRun : Unit → FibState × Option Int :=
  fun _ => (loop (preLoop initState), fib10)

/-! Helper lemmas. -/

/-- The loop body always decrements `c` by exactly one. -/
theorem loopBody_c (s : FibState) : (loopBody s).c = s.c - 1 := by
  unfold loopBody
  split <;> rfl

/-- The loop body always leaves `d` initialized. -/
theorem loopBody_d_isSome (s : FibState) : ((loopBody s).d).isSome = true := by
  unfold loopBody
  split <;> rfl

/-- Unfolding equation of the `while` loop. -/
theorem loop_unfold (s : FibState) : loop s = if s.c > 0 then loop (loopBody s) else s := by
  rw [loop]

/-- Unfolding equation of the iteration counter. -/
theorem loopCount_unfold (s : FibState) :
    loopCount s = if s.c > 0 then loopCount (loopBody s) + 1 else 0 := by
  rw [loopCount]

/-- Starting from a state whose countdown is the natural number `n`, the
`while` loop is exactly `n` applications of the loop body. -/
theorem loop_iterate (n : Nat) (s : FibState) (h : s.c = n) : loop s = loopBody^[n] s := by
  induction n generalizing s with
  | zero =>
      rw [loop_unfold]
      simp [h]
  | succ k ih =>
      rw [loop_unfold, if_pos (show s.c > 0 by omega)]
      rw [ih (loopBody s) (by rw [loopBody_c]; omega)]
      rw [Function.iterate_succ_apply]

/-- Starting from a state whose countdown is the natural number `n`, the
loop body executes exactly `n` times. -/
theorem loopCount_count (n : Nat) (s : FibState) (h : s.c = n) : loopCount s = n := by
  induction n generalizing s with
  | zero =>
      rw [loopCount_unfold]
      simp [h]
  | succ k ih =>
      rw [loopCount_unfold, if_pos (show s.c > 0 by omega)]
      rw [ih (loopBody s) (by rw [loopBody_c]; omega)]

/-- The state in which the `while` loop of `fib10` terminates. -/
theorem loop_run : loop (preLoop initState) = { a := 55, b := 34, c := 0, d := some 1 } := by
  rw [loop_iterate 9 _ (by decide)]
  decide

/-- The value `fib10` hands to the exit syscall is 55. -/
theorem fib10_val : fib10 = some 55 := by
  unfold fib10
  rw [loop_run]
  decide

/-- Bitwise AND with 1 of a nonnegative integer is its parity bit. -/
theorem land_one_of_nonneg (c : Int) (h : 0 ≤ c) : Int.land c 1 = 0 ∨ Int.land c 1 = 1 := by
  obtain ⟨m, rfl⟩ := Int.eq_ofNat_of_zero_le h
  have h1 : Int.land (m : Int) 1 = ((m &&& 1 : Nat) : Int) := rfl
  rw [h1, Nat.and_one_is_mod]
  rcases Nat.mod_two_eq_zero_or_one m with h2 | h2 <;> rw [h2] <;> simp

/-! The claims. -/

/-- Claim C1: for the fixed configuration (target term 10, Fibonacci
convention F(0)=0, F(1)=1), the value passed to the process-exit
primitive at the end of `fib10` equals 55, i.e. the program's sole
output (its exit status) is exactly F(10). -/
theorem fib_c1 : fib10 = some (fib 10 : Int) ∧ fib 10 = 55 := by
  rw [fib10_val]
  exact ⟨by decide, by decide⟩

/-- Claim C2: before the loop and after every iteration of the `while`
loop in `fib10`, the values of `a` and `b` are two consecutive terms of
the Fibonacci sequence (F(0)=0, F(1)=1), each iteration advancing the
pair by one step (which of the two holds the newer term alternating with
the parity of the iteration count); after the loop completes,
`a + b = F(11) = 89`. -/
theorem fib_c2 :
    (∀ k : Nat, k ≤ 9 →
      ((loopBody^[k] (preLoop initState)).a + (loopBody^[k] (preLoop initState)).b
          = (fib (k + 2) : Int)) ∧
      (k % 2 = 0 → (loopBody^[k] (preLoop initState)).a = (fib k : Int) ∧
          (loopBody^[k] (preLoop initState)).b = (fib (k + 1) : Int)) ∧
      (k % 2 = 1 → (loopBody^[k] (preLoop initState)).a = (fib (k + 1) : Int) ∧
          (loopBody^[k] (preLoop initState)).b = (fib k : Int))) ∧
    (loop (preLoop initState)).a + (loop (preLoop initState)).b = (fib 11 : Int) ∧
    fib 11 = 89 := by
  refine ⟨by decide, ?_, by decide⟩
  rw [loop_run]
  decide

/-- Witness for claim C2, at four completed iterations. -/
theorem fib_c2_witness :
    ((loopBody^[4] (preLoop initState)).a + (loopBody^[4] (preLoop initState)).b
        = (fib (4 + 2) : Int)) ∧
    (4 % 2 = 0 → (loopBody^[4] (preLoop initState)).a = (fib 4 : Int) ∧
        (loopBody^[4] (preLoop initState)).b = (fib (4 + 1) : Int)) ∧
    (4 % 2 = 1 → (loopBody^[4] (preLoop initState)).a = (fib (4 + 1) : Int) ∧
        (loopBody^[4] (preLoop initState)).b = (fib 4 : Int)) :=
  fib_c2.1 4 (by decide)

/-- Claim C3: the algorithm of `fib10` follows the specified steps
exactly: `a` starts at 0 and `b` at 1, the countdown `c` enters the loop
at 9, and on states with a nonnegative countdown (as all states reached
during the run have) the loop body of the C source coincides with the
step described by the specification, which sets `d` to `c` AND 1 and
then adds `b` into `a` when `d` is 1 and `a` into `b` otherwise, finally
decrementing `c`. -/
theorem fib_c3 :
    initState.a = 0 ∧ initState.b = 1 ∧ (preLoop initState).c = 9 ∧
    ∀ s : FibState, 0 ≤ s.c → loopBody s = specLoopStep s := by
  refine ⟨rfl, rfl, by decide, ?_⟩
  intro s hs
  rcases land_one_of_nonneg s.c hs with h | h <;>
    simp [loopBody, specLoopStep, h]

/-- Witness for claim C3, at a concrete mid-loop state. -/
theorem fib_c3_witness :
    loopBody (FibState.mk 1 1 9 (some 1)) = specLoopStep (FibState.mk 1 1 9 (some 1)) :=
  fib_c3.2.2.2 (FibState.mk 1 1 9 (some 1)) (by decide)

/-- Claim C4: when the `while` loop of `fib10` exits, `c` is 0; the
post-loop code inspects the last parity flag `d` once, yielding `b` when
`d` is 0 and the unchanged `a` otherwise; and the value passed to `exit`
is exactly the result of that selection applied to the loop's final
state. -/
theorem fib_c4 :
    (loop (preLoop initState)).c = 0 ∧
    (∀ (s : FibState) (x : Int), s.d = some x →
      postLoop s = some (if x = 0 then s.b else s.a)) ∧
    fib10 = postLoop (loop (preLoop initState)) := by
  refine ⟨by rw [loop_run], ?_, rfl⟩
  intro s x hx
  simp [postLoop, hx]

/-- Witness for claim C4, at the loop's actual final state. -/
theorem fib_c4_witness :
    postLoop (FibState.mk 55 34 0 (some 1)) =
      some (if (1 : Int) = 0 then (FibState.mk 55 34 0 (some 1)).b
            else (FibState.mk 55 34 0 (some 1)).a) :=
  fib_c4.2.1 (FibState.mk 55 34 0 (some 1)) 1 rfl

/-- Claim C5: for the fixed configuration of `fib10` (countdown entering
the loop at 9), the loop body executes exactly 9 times and the loop then
exits with `c = 0`. -/
theorem fib_c5 : loopCount (preLoop initState) = 9 ∧ (loop (preLoop initState)).c = 0 := by
  exact ⟨loopCount_count 9 _ (by decide), by rw [loop_run]⟩

/-- Claim C6: no arithmetic overflow occurs in `fib10`: before the loop
and after each iteration, `a` and `b` stay within [0, 55], `c` within
[0, 10] and `d` (once set) within [0, 1]; the final result is 55; and
running the program under 32-bit two's-complement machine arithmetic
gives exactly the same exit value as the exact-integer semantics. -/
theorem fib_c6 :
    (∀ k : Nat, k ≤ 9 →
      0 ≤ (loopBody^[k] (preLoop initState)).a ∧ (loopBody^[k] (preLoop initState)).a ≤ 55 ∧
      0 ≤ (loopBody^[k] (preLoop initState)).b ∧ (loopBody^[k] (preLoop initState)).b ≤ 55 ∧
      0 ≤ (loopBody^[k] (preLoop initState)).c ∧ (loopBody^[k] (preLoop initState)).c ≤ 10 ∧
      ((loopBody^[k] (preLoop initState)).d = none ∨
        (loopBody^[k] (preLoop initState)).d = some 0 ∨
        (loopBody^[k] (preLoop initState)).d = some 1)) ∧
    0 ≤ initState.c ∧ initState.c ≤ 10 ∧
    fib10 = some 55 ∧ fib10machine = fib10 := by
  refine ⟨by decide, by decide, by decide, fib10_val, ?_⟩
  rw [fib10_val]
  decide

/-- Witness for claim C6, at four completed iterations. -/
theorem fib_c6_witness :
    0 ≤ (loopBody^[4] (preLoop initState)).a ∧ (loopBody^[4] (preLoop initState)).a ≤ 55 ∧
    0 ≤ (loopBody^[4] (preLoop initState)).b ∧ (loopBody^[4] (preLoop initState)).b ≤ 55 ∧
    0 ≤ (loopBody^[4] (preLoop initState)).c ∧ (loopBody^[4] (preLoop initState)).c ≤ 10 ∧
    ((loopBody^[4] (preLoop initState)).d = none ∨
      (loopBody^[4] (preLoop initState)).d = some 0 ∨
      (loopBody^[4] (preLoop initState)).d = some 1) :=
  fib_c6.1 4 (by decide)

/-- Claim C7: the computation of `fib10` terminates: the loop body
strictly decreases `c` by 1 on every iteration, from any state with a
nonnegative countdown the `while` loop completes in exactly that many
steps, and the program reaches the `exit` call with a defined value. -/
theorem fib_c7 :
    (∀ s : FibState, (loopBody s).c = s.c - 1) ∧
    (∀ s : FibState, 0 ≤ s.c → loop s = loopBody^[s.c.toNat] s) ∧
    (fib10).isSome = true := by
  refine ⟨loopBody_c, ?_, by rw [fib10_val]; rfl⟩
  intro s hs
  exact loop_iterate s.c.toNat s (by omega)

/-- Witness for claim C7, from a countdown of 2. -/
theorem fib_c7_witness :
    loop (FibState.mk 0 1 2 none) =
      loopBody^[(FibState.mk 0 1 2 none).c.toNat] (FibState.mk 0 1 2 none) :=
  fib_c7.2.1 (FibState.mk 0 1 2 none) (by decide)

/-- Claim C8: `fib10` takes no input and reads no hidden state, so any
two runs of the embedded computation produce the same final state and
the same exit value 55. -/
theorem fib_c8 :
    ∀ u v : Unit, fibRun u = fibRun v ∧
      fibRun u = ({ a := 55, b := 34, c := 0, d := some 1 }, some 55) := by
  intro u v
  refine ⟨rfl, ?_⟩
  unfold fibRun
  rw [loop_run, fib10_val]

/-- Claim C9: the parity flag `d` is always assigned before the
post-loop check reads it: from any state whose countdown is positive (as
`fib10`'s is, entering the loop at 9) the loop body runs at least once
and leaves `d` initialized, so the `if (d == 0)` test never reads an
uninitialized variable in this program. -/
theorem fib_c9 :
    (∀ s : FibState, 0 < s.c → ((loop s).d).isSome = true) ∧
    ((loop (preLoop initState)).d).isSome = true ∧
    postLoop (loop (preLoop initState)) ≠ none := by
  refine ⟨?_, by rw [loop_run]; rfl, by rw [loop_run]; decide⟩
  intro s hs
  rw [loop_iterate s.c.toNat s (by omega)]
  obtain ⟨k, hk⟩ : ∃ k, s.c.toNat = k + 1 := ⟨s.c.toNat - 1, by omega⟩
  rw [hk, Function.iterate_succ_apply']
  exact loopBody_d_isSome _

/-- Witness for claim C9, from a countdown of 3. -/
theorem fib_c9_witness : ((loop (FibState.mk 0 1 3 none)).d).isSome = true :=
  fib_c9.1 (FibState.mk 0 1 3 none) (by decide)

/-- Claim C10: for the fixed configuration, the last iteration of the
loop runs with `c = 1`, so `d = 1` at loop exit; the correction branch
`a = b` is therefore not taken, and the exit value is exactly the `a`
accumulated by the loop, unchanged between loop exit and the `exit`
call. -/
theorem fib_c10 :
    (loopBody^[8] (preLoop initState)).c = 1 ∧
    (loop (preLoop initState)).d = some 1 ∧
    postLoop (loop (preLoop initState)) = some ((loop (preLoop initState)).a) ∧
    (loop (preLoop initState)).a = 55 := by
  refine ⟨by decide, by rw [loop_run], ?_, by rw [loop_run]⟩
  rw [loop_run]
  decide
